import Mathlib

/-!
Shallow embedding of the serverless relay in `src/api/generate.js`:
a JSON-ish value model for JavaScript data, the retrying upstream
invoker `fetchWithRetry`, and the request `handler`, together with
theorems settling the specified properties.
-/

/-- JSON-like JavaScript values (`JSON.parse` results, request bodies,
upstream response bodies).  Object fields are an ordered association
list; a later binding of the same key shadows an earlier one, as in a
JavaScript object literal. -/
inductive JVal where
  | jnull
  | jbool (b : Bool)
  | jnum (n : ℚ)
  | jstr (s : String)
  | jarr (items : List JVal)
  | jobj (fields : List (String × JVal))

/-- Property lookup in an object field list: the LAST binding of the key
wins (JavaScript object semantics); `none` models `undefined`. -/
def lookupField (fs : List (String × JVal)) (k : String) : Option JVal :=
  (fs.reverse.find? (fun kv => kv.1 == k)).map (fun kv => kv.2)

/-- JavaScript truthiness of a possibly-absent value: `undefined`, `null`,
`false`, `0` and `""` are falsy; every other value is truthy. -/
def truthy : Option JVal → Bool
  | none => false
  | some .jnull => false
  | some (.jbool b) => b
  | some (.jnum n) => decide (n ≠ 0)
  | some (.jstr s) => !s.isEmpty
  | some (.jarr _) => true
  | some (.jobj _) => true

/-- Plain (non-optional) JavaScript member access `v.k`: throws a
TypeError on `null`/`undefined`; yields the property (or `undefined`)
otherwise.  Primitive values are boxed and have none of the property
names this program reads. -/
def jsGet : Option JVal → String → Except String (Option JVal)
  | none, _ => .error "TypeError"
  | some .jnull, _ => .error "TypeError"
  | some (.jobj fs), k => .ok (lookupField fs k)
  | some _, _ => .ok none

/-- Optional-chaining member access `v?.k`: short-circuits to `undefined`
on `null`/`undefined` instead of throwing. -/
def optGet (v : Option JVal) (k : String) : Option JVal :=
  match v with
  | none => none
  | some .jnull => none
  | some (.jobj fs) => lookupField fs k
  | some _ => none

/-- Optional-chaining index access `v?.[0]`: `undefined` on
`null`/`undefined`; element lookup on arrays; string key "0" on objects;
first character of a string. -/
def optIdx0 (v : Option JVal) : Option JVal :=
  match v with
  | none => none
  | some .jnull => none
  | some (.jarr items) => items.get? 0
  | some (.jobj fs) => lookupField fs "0"
  | some (.jstr s) => if s.isEmpty then none else some (.jstr (String.singleton (s.get 0)))
  | some _ => none

/-- Outcome of one `fetch(url, options)` call: either the promise rejects
(transport-level error carrying a message) or an HTTP response arrives,
with its status code and its body text. -/
inductive FetchOutcome where
  | transportError (msg : String)
  | response (status : Nat) (bodyText : String)

/-- JavaScript `Response.ok`: status in the inclusive range 200..299. -/
def respOk (status : Nat) : Bool :=
  decide (200 ≤ status) && decide (status ≤ 299)

/-- What one iteration of the retry loop body (the `try` block of
`fetchWithRetry`, lines 22-33) does with the fetch outcome: either
`return response` or an error reaches the `catch` block. -/
inductive AttemptResult where
  | returned (status : Nat) (bodyText : String)
  | threw (msg : String)

/-- The `try` block of `fetchWithRetry`: a rejected fetch propagates; a
non-ok response throws — "Retriable HTTP error!" for 429/5xx, otherwise
the body is read and "API Request failed" is thrown; an ok response is
returned. -/
def runAttempt : FetchOutcome → AttemptResult
  | .transportError msg => .threw msg
  | .response status bodyText =>
    if !respOk status then
      if status == 429 || decide (500 ≤ status) then
        .threw ("Retriable HTTP error! status: " ++ toString status)
      else
        .threw ("API Request failed with status " ++ toString status ++ ": " ++ bodyText)
    else .returned status bodyText

/-- Result of a whole `fetchWithRetry` run: the returned response, the
error finally thrown, or `noResult` for a run whose loop never executes
(maxRetries = 0; the JavaScript function resolves to `undefined`). -/
inductive RetryResult where
  | success (status : Nat) (bodyText : String)
  | failure (msg : String)
  | noResult
deriving DecidableEq

/-- Observable trace of a `fetchWithRetry` run: its result, how many
fetch attempts were made, and the backoff delays (in milliseconds) slept
between consecutive attempts, in order. -/
structure RetryRun where
  result : RetryResult
  attemptsMade : Nat
  delays : List ℚ
deriving DecidableEq

/-- The retry loop `for (let attempt = 0; attempt < maxRetries; attempt++)`
of lines 21-43, written structurally on the number `remaining` of loop
iterations still allowed (`remaining = maxRetries - attempt`; the guard
`attempt == maxRetries - 1` becomes `remaining = 1`).  `f` gives the
fetch outcome of each attempt index, and `jit` the value drawn by
`Math.random()` before each backoff sleep.  The backoff delay after a
failed attempt is `2 ^ attempt * 1000 + jit attempt * 1000`. -/
def retryGo (f : Nat → FetchOutcome) (jit : Nat → ℚ) (attempt : Nat) :
    Nat → RetryRun
  | 0 => ⟨.noResult, attempt, []⟩
  | remaining + 1 =>
    match runAttempt (f attempt) with
    | .returned s b => ⟨.success s b, attempt + 1, []⟩
    | .threw msg =>
      if remaining = 0 then
        ⟨.failure msg, attempt + 1, []⟩
      else
        let d : ℚ := 2 ^ attempt * 1000 + jit attempt * 1000
        let rest := retryGo f jit (attempt + 1) remaining
        ⟨rest.result, rest.attemptsMade, d :: rest.delays⟩

/-- fetchWithRetry (lines 20-44): run the loop from attempt 0 with
maxRetries iterations allowed (default 5). -/
def fetchWithRetry (f : Nat → FetchOutcome) (jit : Nat → ℚ)
    (maxRetries : Nat := 5) : RetryRun :=
  retryGo f jit 0 maxRetries

/-- Inbound request body as the hosting runtime hands it to the handler:
absent (undefined), a raw string, or an already-parsed value. -/
inductive ReqBody where
  | absent
  | str (s : String)
  | val (v : JVal)

/-- Inbound request: HTTP method and body. -/
structure Req where
  method : String
  body : ReqBody

/-- HTTP response emitted by the handler: status code and JSON body. -/
structure HttpResponse where
  status : Nat
  body : JVal

/-- Error-body shape used by the handler: an object with a single
"error" field. -/
def errBody (msg : String) : JVal := .jobj [("error", .jstr msg)]

def cfgErrorMsg : String := "伺服器配置錯誤：GEMINI_API_KEY 未設定。"

def methodErrorMsg : String := "僅支援 POST 請求。"

def missingParamsMsg : String :=
  "缺少必要的請求參數 (promptText, image.data, image.mimeType, 或 model)。"

def policyBlockedMsg : String := "內容可能因安全政策而被阻擋，請嘗試修改情境。"

def genericFailureMsg : String := "AI 生成圖片失敗，請檢查情境或重試。"

/-- Defensive re-parse of the body (lines 64-76): a string of positive
length is fed to JSON.parse (modelled by the ambient `jsonParse`
oracle); on parse failure the body degrades to the empty object; every
other body is kept as is. -/
def normalizeBody (jsonParse : String → Option JVal) : ReqBody → ReqBody
  | .str s =>
    if 0 < s.length then
      match jsonParse s with
      | some v => .val v
      | none => .val (.jobj [])
    else .str s
  | b => b

/-- Destructuring (line 79) of requestBody into the three fields; on
null or undefined the destructuring itself throws a TypeError.  A string
(or any other primitive) is boxed and has none of these properties. -/
def destructure : ReqBody → Except String (Option JVal × Option JVal × Option JVal)
  | .absent => .error "TypeError"
  | .val .jnull => .error "TypeError"
  | .val (.jobj fs) =>
    .ok (lookupField fs "promptText", lookupField fs "image", lookupField fs "model")
  | .val _ => .ok (none, none, none)
  | .str _ => .ok (none, none, none)

/-- Required-field check of line 81:
missing when !promptText || !image || !image.data || !image.mimeType || !model.
The image.data / image.mimeType accesses sit behind the !image
short-circuit, so they are only reached on a truthy (hence non-nullish)
image, where plain member access cannot throw. -/
def missingFields (promptText image model : Option JVal) : Bool :=
  !truthy promptText || !truthy image || !truthy (optGet image "data") ||
    !truthy (optGet image "mimeType") || !truthy model

/-- The find callback of line 119 applied to one part: `p.inlineData`
is a plain member access (TypeError on a null element), tested for
truthiness. -/
def partHasInline (p : JVal) : Except String Bool :=
  match jsGet (some p) "inlineData" with
  | .error e => .error e
  | .ok v => .ok (truthy v)

/-- Array.prototype.find over the parts with the line-119 callback:
first element whose inlineData is truthy, or none. -/
def findInline : List JVal → Except String (Option JVal)
  | [] => .ok none
  | p :: rest =>
    match partHasInline p with
    | .error e => .error e
    | .ok true => .ok (some p)
    | .ok false => findInline rest

/-- The extraction expression of line 119:
result?.candidates?.[0]?.content?.parts?.find(p => p.inlineData)?.inlineData?.data.
Every step is optional-chained, so the only throw points are calling
find on a non-array parts value (any non-function member named find
also throws when called) and a null element inside the callback. -/
def firstInlineData (result : JVal) : Except String (Option JVal) :=
  match optGet (optGet (optIdx0 (optGet (some result) "candidates")) "content") "parts" with
  | none => .ok none
  | some .jnull => .ok none
  | some (.jarr items) =>
    match findInline items with
    | .error e => .error e
    | .ok none => .ok none
    | .ok (some p) => .ok (optGet (optGet (some p) "inlineData") "data")
  | some _ => .error "TypeError"

/-- Strict equality of a JavaScript value against the string "HIGH"
(the === test of line 127): true only for that exact string. -/
def isHighStr : Option JVal → Bool
  | some (.jstr s) => s == "HIGH"
  | _ => false

/-- The safety-rating probe of line 127:
result.candidates?.[0]?.safetyRatings?.[0]?.probability === "HIGH".
The first access (result.candidates) is not optional-chained, so it
throws on a null result; everything after it is optional-chained. -/
def safetyProbHigh (result : JVal) : Except String Bool :=
  match jsGet (some result) "candidates" with
  | .error e => .error e
  | .ok cands =>
    .ok (isHighStr (optGet (optIdx0 (optGet (optIdx0 cands) "safetyRatings")) "probability"))

/-- ProviderPayload construction of lines 89-108, from the destructured
truthy field values. -/
def buildPayload (promptText imageMime imageData : JVal) : JVal :=
  .jobj
    [("contents", .jarr
      [.jobj
        [("role", .jstr "user"),
         ("parts", .jarr
           [.jobj [("text", promptText)],
            .jobj [("inlineData", .jobj
              [("mimeType", imageMime), ("data", imageData)])]])]]),
     ("generationConfig", .jobj
       [("responseModalities", .jarr [.jstr "TEXT", .jstr "IMAGE"])])]

/-- The try block of the handler (lines 63-136).  `jsonParse` models
JSON.parse / Response.json body decoding (none = the decode throws);
`upstream` gives each fetch attempt outcome and `jit` the jitter draws.
Returns the emitted response together with the number of upstream fetch
attempts made, or the message of an exception escaping to the catch
block (paired with the attempts made before it was thrown). -/
def handlerTry (jsonParse : String → Option JVal) (upstream : Nat → FetchOutcome)
    (jit : Nat → ℚ) (body : ReqBody) :
    Except (String × Nat) (HttpResponse × Nat) :=
  let requestBody := normalizeBody jsonParse body
  match destructure requestBody with
  | .error m => .error (m, 0)
  | .ok (promptText, image, model) =>
    if missingFields promptText image model then
      .ok (⟨400, errBody missingParamsMsg⟩, 0)
    else
      match fetchWithRetry upstream jit 5 with
      | ⟨.success _s bodyText, n, _⟩ =>
        match jsonParse bodyText with
        | none => .error ("Unexpected end of JSON input", n)
        | some result =>
          match firstInlineData result with
          | .error m => .error (m, n)
          | .ok base64Data =>
            if truthy base64Data then
              .ok (⟨200, .jobj [("base64Data", base64Data.getD .jnull)]⟩, n)
            else
              match safetyProbHigh result with
              | .error m => .error (m, n)
              | .ok high =>
                .ok (⟨500, .jobj
                  [("error", .jstr (if high then policyBlockedMsg else genericFailureMsg)),
                   ("details", result)]⟩, n)
      | ⟨.failure m, n, _⟩ => .error (m, n)
      | ⟨.noResult, n, _⟩ => .error ("TypeError", n)

/-- The handler (lines 52-141): missing API key check, then method
check, then the try block; an exception reaching the catch block is
rendered as a 500 internal-error response.  The second component is the
number of upstream fetch attempts made while serving the request. -/
def handler (apiKey : String) (jsonParse : String → Option JVal)
    (upstream : Nat → FetchOutcome) (jit : Nat → ℚ) (req : Req) :
    HttpResponse × Nat :=
  if apiKey.isEmpty then (⟨500, errBody cfgErrorMsg⟩, 0)
  else if req.method ≠ "POST" then (⟨405, errBody methodErrorMsg⟩, 0)
  else
    match handlerTry jsonParse upstream jit req.body with
    | .ok r => r
    | .error (m, n) => (⟨500, errBody ("伺服器內部錯誤: " ++ m)⟩, n)

/-- Retriable outcome in the sense of the spec glossary: a transport
error, HTTP 429, or an HTTP 5xx status. -/
def retriableOutcome : FetchOutcome → Bool
  | .transportError _ => true
  | .response status _ => status == 429 || decide (500 ≤ status)

/-- Zero jitter draw (a possible value of the Math.random() stream). -/
def wJit0 : Nat → ℚ := fun _ => 0

/-- Upstream that answers 400 Bad Request on every attempt. -/
def wF400 : Nat → FetchOutcome := fun _ => .response 400 "Bad Request"

/-- Upstream that answers 500 on every attempt. -/
def wF500 : Nat → FetchOutcome := fun _ => .response 500 "oops"

/-- Upstream that answers 200 with body text "RESP" on every attempt. -/
def wF200 : Nat → FetchOutcome := fun _ => .response 200 "RESP"

/-- A JSON decoder that fails on every input. -/
def wNoParse : String → Option JVal := fun _ => none

/-- A sample valid image object. -/
def wImage : JVal := .jobj [("data", .jstr "AAA"), ("mimeType", .jstr "image/png")]

/-- A sample valid inbound body. -/
def wValidBody : JVal :=
  .jobj [("promptText", .jstr "a cat"), ("image", wImage), ("model", .jstr "gemini")]

/-- A sample valid POST request. -/
def wReqValid : Req := ⟨"POST", .val wValidBody⟩

/-- A POST request whose body is an empty object. -/
def wReqEmptyObj : Req := ⟨"POST", .val (.jobj [])⟩

/-- A text-only content part. -/
def wTextPart : JVal := .jobj [("text", .jstr "hello")]

/-- A content part carrying inline image data. -/
def wInlinePart : JVal :=
  .jobj [("inlineData", .jobj [("mimeType", .jstr "image/png"), ("data", .jstr "QUJD")])]

/-- An upstream result whose first candidate has a text part followed by
an inline-data part. -/
def wResultOk : JVal :=
  .jobj [("candidates", .jarr
    [.jobj [("content", .jobj [("parts", .jarr [wTextPart, wInlinePart])])]])]

/-- An upstream result with no inline-data part and a HIGH first safety
rating. -/
def wResultBlocked : JVal :=
  .jobj [("candidates", .jarr
    [.jobj [("content", .jobj [("parts", .jarr [wTextPart])]),
            ("safetyRatings", .jarr [.jobj [("probability", .jstr "HIGH")]])]])]

/-- JSON decoder that maps "RESP" to the inline-data result. -/
def wParseOk : String → Option JVal := fun s => if s = "RESP" then some wResultOk else none

/-- JSON decoder that maps "RESP" to the blocked result. -/
def wParseBlocked : String → Option JVal :=
  fun s => if s = "RESP" then some wResultBlocked else none

theorem isEmpty_false_of_ne (s : String) (h : s ≠ "") : s.isEmpty = false := by
  cases hE : s.isEmpty
  · rfl
  · exact absurd ((String.isEmpty_iff s).mp hE) h

theorem retriable_threw (o : FetchOutcome) (h : retriableOutcome o = true) :
    ∃ m, runAttempt o = .threw m := by
  cases o with
  | transportError msg => exact ⟨msg, rfl⟩
  | response status bodyText =>
    have hcond : (status == 429 || decide (500 ≤ status)) = true := h
    have hP : status = 429 ∨ 500 ≤ status := by simpa using hcond
    have hok : respOk status = false := by
      simp only [respOk]
      simp only [Bool.and_eq_false_iff, decide_eq_false_iff_not]
      omega
    refine ⟨"Retriable HTTP error! status: " ++ toString status, ?_⟩
    simp [runAttempt, hok, hcond]

theorem retryGo_zero (f : Nat → FetchOutcome) (jit : Nat → ℚ) (a : Nat) :
    retryGo f jit a 0 = ⟨.noResult, a, []⟩ := rfl

theorem retryGo_returned (f : Nat → FetchOutcome) (jit : Nat → ℚ) (a r s : Nat)
    (bt : String) (h : runAttempt (f a) = .returned s bt) :
    retryGo f jit a (r + 1) = ⟨.success s bt, a + 1, []⟩ := by
  simp [retryGo, h]

theorem retryGo_threw_last (f : Nat → FetchOutcome) (jit : Nat → ℚ) (a : Nat)
    (m : String) (h : runAttempt (f a) = .threw m) :
    retryGo f jit a 1 = ⟨.failure m, a + 1, []⟩ := by
  simp [retryGo, h]

theorem retryGo_threw_step (f : Nat → FetchOutcome) (jit : Nat → ℚ) (a r : Nat)
    (m : String) (h : runAttempt (f a) = .threw m) (hr : r ≠ 0) :
    retryGo f jit a (r + 1) =
      ⟨(retryGo f jit (a + 1) r).result, (retryGo f jit (a + 1) r).attemptsMade,
        (2 ^ a * 1000 + jit a * 1000) :: (retryGo f jit (a + 1) r).delays⟩ := by
  simp [retryGo, h, hr]

theorem retryGo_delays_get (f : Nat → FetchOutcome) (jit : Nat → ℚ) :
    ∀ (r a i : Nat) (d : ℚ), ((retryGo f jit a r).delays.get? i) = some d →
      d = 2 ^ (a + i) * 1000 + jit (a + i) * 1000 := by
  intro r
  induction r with
  | zero => intro a i d h; simp [retryGo_zero] at h
  | succ r ih =>
    intro a i d h
    cases hA : runAttempt (f a) with
    | returned s b => rw [retryGo_returned f jit a r s b hA] at h; simp at h
    | threw msg =>
      by_cases hr : r = 0
      · subst hr; rw [retryGo_threw_last f jit a msg hA] at h; simp at h
      · rw [retryGo_threw_step f jit a r msg hA hr] at h
        cases i with
        | zero =>
          simp only [List.get?] at h
          have hd : 2 ^ a * 1000 + jit a * 1000 = d := by injection h
          simpa using hd.symm
        | succ i =>
          simp only [List.get?] at h
          have := ih (a + 1) i d h
          have harith : a + 1 + i = a + (i + 1) := by omega
          rwa [harith] at this

theorem retryGo_attempts_lb (f : Nat → FetchOutcome) (jit : Nat → ℚ) :
    ∀ (r a : Nat), 1 ≤ r → a + 1 ≤ (retryGo f jit a r).attemptsMade := by
  intro r
  induction r with
  | zero => intro a h; omega
  | succ r ih =>
    intro a _
    cases hA : runAttempt (f a) with
    | returned s b => rw [retryGo_returned f jit a r s b hA]
    | threw msg =>
      by_cases hr : r = 0
      · subst hr; rw [retryGo_threw_last f jit a msg hA]
      · rw [retryGo_threw_step f jit a r msg hA hr]
        have := ih (a + 1) (by omega)
        simp only
        omega

theorem retryGo_delays_length (f : Nat → FetchOutcome) (jit : Nat → ℚ) :
    ∀ (r a : Nat),
      (retryGo f jit a r).delays.length = (retryGo f jit a r).attemptsMade - a - 1 := by
  intro r
  induction r with
  | zero => intro a; simp [retryGo_zero]
  | succ r ih =>
    intro a
    cases hA : runAttempt (f a) with
    | returned s b => rw [retryGo_returned f jit a r s b hA]; simp
    | threw msg =>
      by_cases hr : r = 0
      · subst hr; rw [retryGo_threw_last f jit a msg hA]; simp
      · rw [retryGo_threw_step f jit a r msg hA hr]
        have hlb := retryGo_attempts_lb f jit r (a + 1) (by omega)
        have := ih (a + 1)
        simp only [List.length_cons]
        omega

theorem retryGo_exhaust (f : Nat → FetchOutcome) (jit : Nat → ℚ) :
    ∀ (r a : Nat), 1 ≤ r →
      (∀ i, a ≤ i → i < a + r → ∃ m, runAttempt (f i) = .threw m) →
      ∃ m, runAttempt (f (a + r - 1)) = .threw m ∧
        (retryGo f jit a r).result = .failure m ∧
        (retryGo f jit a r).attemptsMade = a + r := by
  intro r
  induction r with
  | zero => intro a h; omega
  | succ r ih =>
    intro a _ hall
    by_cases hr : r = 0
    · subst hr
      obtain ⟨m, hm⟩ := hall a (le_refl a) (by omega)
      rw [retryGo_threw_last f jit a m hm]
      exact ⟨m, by simpa using hm, rfl, rfl⟩
    · obtain ⟨m0, hm0⟩ := hall a (le_refl a) (by omega)
      obtain ⟨m, hm, hres, hatt⟩ :=
        ih (a + 1) (by omega) (fun i h1 h2 => hall i (by omega) (by omega))
      rw [retryGo_threw_step f jit a r m0 hm0 hr]
      refine ⟨m, ?_, ?_, ?_⟩
      · have harith : a + 1 + r - 1 = a + (r + 1) - 1 := by omega
        rwa [harith] at hm
      · exact hres
      · simp only
        omega

theorem retryGo_success (f : Nat → FetchOutcome) (jit : Nat → ℚ) :
    ∀ (r a b s : Nat) (bt : String), a ≤ b → b < a + r →
      (∀ i, a ≤ i → i < b → ∃ m, runAttempt (f i) = .threw m) →
      runAttempt (f b) = .returned s bt →
      (retryGo f jit a r).result = .success s bt ∧
      (retryGo f jit a r).attemptsMade = b + 1 := by
  intro r
  induction r with
  | zero => intro a b s bt h1 h2; omega
  | succ r ih =>
    intro a b s bt hab hbr hpre hb
    by_cases hEq : a = b
    · subst hEq
      rw [retryGo_returned f jit a r s bt hb]
      exact ⟨rfl, rfl⟩
    · obtain ⟨m0, hm0⟩ := hpre a (le_refl a) (by omega)
      have hr : r ≠ 0 := by omega
      have := ih (a + 1) b s bt (by omega) (by omega)
        (fun i h1 h2 => hpre i (by omega) h2) hb
      rw [retryGo_threw_step f jit a r m0 hm0 hr]
      exact this

theorem findInline_first (pre post : List JVal) (p : JVal)
    (hpre : ∀ q ∈ pre, partHasInline q = .ok false)
    (hp : partHasInline p = .ok true) :
    findInline (pre ++ p :: post) = .ok (some p) := by
  induction pre with
  | nil => simp only [List.nil_append, findInline, hp]
  | cons q rest ih =>
    have hq := hpre q (by simp)
    simp only [List.cons_append, findInline, hq]
    exact ih (fun x hx => hpre x (by simp [hx]))

/-- C1: the spec says a non-2xx status other than 429/5xx (for example
400) is fatal and aborts with exactly 1 attempt.  In the code the fatal
throw of line 31 lands in the same catch block that drives retries, so a
400 on every attempt is retried like a transient fault: five attempts
are made and the final throw carries the 400 status and body. -/
theorem http400_retried_not_aborted :
    fetchWithRetry wF400 wJit0 5 =
      ⟨.failure "API Request failed with status 400: Bad Request", 5,
        [1000, 2000, 4000, 8000]⟩ := by
  simp [fetchWithRetry, wF400, wJit0, retryGo, runAttempt, respOk]
  norm_num
  rfl

/-- C2: whenever a backoff delay is recorded before attempt n (n ≥ 1)
and every jitter draw lies in [0, 1), that delay lies in
[2 ^ (n-1) * 1000, 2 ^ (n-1) * 1000 + 1000) milliseconds; and the run
records exactly one delay per attempt after the first (none before
attempt 0). -/
theorem backoff_delay_in_range (f : Nat → FetchOutcome) (jit : Nat → ℚ)
    (m n : Nat) (d : ℚ)
    (hj : ∀ a, 0 ≤ jit a ∧ jit a < 1) (hn : 1 ≤ n)
    (hd : (fetchWithRetry f jit m).delays.get? (n - 1) = some d) :
    (2 ^ (n - 1) * 1000 ≤ d ∧ d < 2 ^ (n - 1) * 1000 + 1000) ∧
    (fetchWithRetry f jit m).delays.length =
      (fetchWithRetry f jit m).attemptsMade - 1 := by
  simp only [fetchWithRetry] at hd ⊢
  have hval := retryGo_delays_get f jit m 0 (n - 1) d hd
  simp only [Nat.zero_add] at hval
  obtain ⟨h0, h1⟩ := hj (n - 1)
  refine ⟨⟨?_, ?_⟩, ?_⟩
  · have hnn : (0 : ℚ) ≤ jit (n - 1) * 1000 := by
      have := mul_nonneg h0 (by norm_num : (0 : ℚ) ≤ 1000)
      linarith
    rw [hval]; linarith
  · have hlt : jit (n - 1) * 1000 < 1000 := by
      have := mul_lt_mul_of_pos_right h1 (by norm_num : (0 : ℚ) < 1000)
      linarith
    rw [hval]; linarith
  · have := retryGo_delays_length f jit m 0
    simpa using this

/-- C2 witness: a concrete run in which every attempt fails with 500 and
the jitter is 0; the recorded delay before attempt 2 is 2000 ms, inside
the stated interval. -/
theorem backoff_delay_in_range_witness :
    ((2 : ℚ) ^ (2 - 1) * 1000 ≤ 2000 ∧ (2000 : ℚ) < 2 ^ (2 - 1) * 1000 + 1000) ∧
    (fetchWithRetry wF500 wJit0 3).delays.length =
      (fetchWithRetry wF500 wJit0 3).attemptsMade - 1 := by
  refine backoff_delay_in_range wF500 wJit0 3 2 2000
    (fun a => ⟨le_refl 0, by norm_num [wJit0]⟩) (by norm_num) ?_
  simp [fetchWithRetry, wF500, wJit0, retryGo, runAttempt, respOk]
  norm_num

/-- C3: if every attempt in a run is a retriable outcome (429, 5xx, or
transport error), the run makes exactly maxRetries attempts, fails, and
carries the error message thrown by the last attempt. -/
theorem all_retriable_exhausts (f : Nat → FetchOutcome) (jit : Nat → ℚ)
    (m : Nat) (hm : 1 ≤ m)
    (hall : ∀ a, a < m → retriableOutcome (f a) = true) :
    ∃ msg, runAttempt (f (m - 1)) = .threw msg ∧
      (fetchWithRetry f jit m).result = .failure msg ∧
      (fetchWithRetry f jit m).attemptsMade = m := by
  have h := retryGo_exhaust f jit m 0 hm
    (fun i h1 h2 => retriable_threw (f i) (hall i (by omega)))
  simpa [fetchWithRetry] using h

/-- C3 witness: all five attempts answer 500; the run makes exactly 5
attempts and fails with the last retriable error. -/
theorem all_retriable_exhausts_witness :
    ∃ msg, runAttempt (wF500 (5 - 1)) = .threw msg ∧
      (fetchWithRetry wF500 wJit0 5).result = .failure msg ∧
      (fetchWithRetry wF500 wJit0 5).attemptsMade = 5 :=
  all_retriable_exhausts wF500 wJit0 5 (by norm_num)
    (fun a _ => by simp [wF500, retriableOutcome])

theorem fetch_success_shape (f : Nat → FetchOutcome) (jit : Nat → ℚ) (b s : Nat)
    (bt : String) (hb : b < 5)
    (hpre : ∀ i, i < b → ∃ m, runAttempt (f i) = .threw m)
    (hresp : runAttempt (f b) = .returned s bt) :
    ∃ ds, fetchWithRetry f jit 5 = ⟨.success s bt, b + 1, ds⟩ := by
  obtain ⟨hres, hatt⟩ := retryGo_success f jit 5 0 b s bt (by omega) (by omega)
    (fun i _ h2 => hpre i h2) hresp
  refine ⟨(retryGo f jit 0 5).delays, ?_⟩
  show retryGo f jit 0 5 = ⟨.success s bt, b + 1, (retryGo f jit 0 5).delays⟩
  rw [← hres, ← hatt]

/-- C4: with the API key present, a POST request whose destructured body
is missing any required field (promptText, image, image.data,
image.mimeType, model absent or falsy) is answered 400 with the
missing-parameters message, and no upstream attempt is made. -/
theorem missing_required_fields_400 (apiKey : String)
    (jsonParse : String → Option JVal) (upstream : Nat → FetchOutcome)
    (jit : Nat → ℚ) (req : Req) (pt im md : Option JVal)
    (hkey : apiKey ≠ "") (hpost : req.method = "POST")
    (hdest : destructure (normalizeBody jsonParse req.body) = .ok (pt, im, md))
    (hmiss : missingFields pt im md = true) :
    handler apiKey jsonParse upstream jit req = (⟨400, errBody missingParamsMsg⟩, 0) := by
  have hke := isEmpty_false_of_ne apiKey hkey
  have ht : handlerTry jsonParse upstream jit req.body =
      .ok (⟨400, errBody missingParamsMsg⟩, 0) := by
    simp [handlerTry, hdest, hmiss]
  simp [handler, hke, hpost, ht]

/-- C4 witness: a POST with an empty-object body is rejected with the
400 missing-parameters response and zero upstream attempts. -/
theorem missing_required_fields_400_witness :
    handler "k" wNoParse wF500 wJit0 wReqEmptyObj =
      (⟨400, errBody missingParamsMsg⟩, 0) :=
  missing_required_fields_400 "k" wNoParse wF500 wJit0 wReqEmptyObj none none none
    (by decide) rfl rfl rfl

/-- C9: with the API key present, any non-POST request is answered 405
regardless of its body, with no upstream attempt. -/
theorem non_post_rejected_405 (apiKey : String) (jsonParse : String → Option JVal)
    (upstream : Nat → FetchOutcome) (jit : Nat → ℚ) (req : Req)
    (hkey : apiKey ≠ "") (hm : req.method ≠ "POST") :
    handler apiKey jsonParse upstream jit req = (⟨405, errBody methodErrorMsg⟩, 0) := by
  have hke := isEmpty_false_of_ne apiKey hkey
  simp [handler, hke, hm]

/-- C9 witness: a GET request is answered 405 with zero upstream
attempts. -/
theorem non_post_rejected_405_witness :
    handler "k" wNoParse wF500 wJit0 ⟨"GET", .absent⟩ =
      (⟨405, errBody methodErrorMsg⟩, 0) :=
  non_post_rejected_405 "k" wNoParse wF500 wJit0 ⟨"GET", .absent⟩
    (by decide) (by decide)

/-- C8: with the API key absent (empty), every request is answered 500
with the misconfiguration message — independent of method, body, JSON
decoding and upstream behaviour — and no upstream attempt is made. -/
theorem missing_api_key_500 (jsonParse : String → Option JVal)
    (upstream : Nat → FetchOutcome) (jit : Nat → ℚ) (req : Req) :
    handler "" jsonParse upstream jit req = (⟨500, errBody cfgErrorMsg⟩, 0) := by
  have h : ("" : String).isEmpty = true := rfl
  simp [handler, h]

/-- C10: an empty-string body skips the manual JSON re-parse (for every
decoder), destructures to no fields, and is answered with the 400
missing-parameters response with no upstream attempt. -/
theorem empty_string_body_400 (apiKey : String) (jsonParse : String → Option JVal)
    (upstream : Nat → FetchOutcome) (jit : Nat → ℚ)
    (hkey : apiKey ≠ "") :
    handler apiKey jsonParse upstream jit ⟨"POST", .str ""⟩ =
      (⟨400, errBody missingParamsMsg⟩, 0) := by
  have hke := isEmpty_false_of_ne apiKey hkey
  have ht : handlerTry jsonParse upstream jit (.str "") =
      .ok (⟨400, errBody missingParamsMsg⟩, 0) := by
    simp [handlerTry, normalizeBody, destructure, missingFields, truthy]
  simp [handler, hke, ht]

/-- C10 witness: the empty-string body yields the 400 response even when
the decoder would succeed on every string. -/
theorem empty_string_body_400_witness :
    handler "k" (fun _ => some wValidBody) wF500 wJit0 ⟨"POST", .str ""⟩ =
      (⟨400, errBody missingParamsMsg⟩, 0) :=
  empty_string_body_400 "k" (fun _ => some wValidBody) wF500 wJit0 (by decide)

/-- C7: a non-empty string body on which the JSON decode fails does not
raise: the body degrades to an empty object and the request is answered
with the 400 missing-parameters response, with no upstream attempt. -/
theorem invalid_json_string_body_400 (apiKey : String)
    (jsonParse : String → Option JVal) (upstream : Nat → FetchOutcome)
    (jit : Nat → ℚ) (s : String)
    (hkey : apiKey ≠ "") (hlen : 0 < s.length) (hparse : jsonParse s = none) :
    handler apiKey jsonParse upstream jit ⟨"POST", .str s⟩ =
      (⟨400, errBody missingParamsMsg⟩, 0) := by
  have hke := isEmpty_false_of_ne apiKey hkey
  have hnorm : normalizeBody jsonParse (.str s) = .val (.jobj []) := by
    simp [normalizeBody, hlen, hparse]
  have ht : handlerTry jsonParse upstream jit (.str s) =
      .ok (⟨400, errBody missingParamsMsg⟩, 0) := by
    simp [handlerTry, hnorm, destructure, lookupField, missingFields, truthy]
  simp [handler, hke, ht]

/-- C7 witness: the undecodable one-character body "x" yields the 400
response with zero upstream attempts. -/
theorem invalid_json_string_body_400_witness :
    handler "k" wNoParse wF500 wJit0 ⟨"POST", .str "x"⟩ =
      (⟨400, errBody missingParamsMsg⟩, 0) :=
  invalid_json_string_body_400 "k" wNoParse wF500 wJit0 "x"
    (by decide) (by decide) rfl

/-- C5: when upstream attempt b answers 2xx after only thrown attempts,
fetchWithRetry returns that response immediately (b + 1 attempts, no
more), and when the parts of the first candidate are pre ++ p :: post
with p the first part carrying a truthy inlineData, the handler answers
200 with body base64Data = p.inlineData.data. -/
theorem success_returns_first_inline_200 (apiKey : String)
    (jsonParse : String → Option JVal) (upstream : Nat → FetchOutcome)
    (jit : Nat → ℚ) (req : Req) (pt im md : Option JVal) (b s : Nat)
    (bodyText : String) (result : JVal) (pre post : List JVal) (p d : JVal)
    (hkey : apiKey ≠ "") (hpost : req.method = "POST")
    (hdest : destructure (normalizeBody jsonParse req.body) = .ok (pt, im, md))
    (hmiss : missingFields pt im md = false)
    (hb : b < 5)
    (hpre : ∀ i, i < b → ∃ m, runAttempt (upstream i) = .threw m)
    (hresp : upstream b = .response s bodyText)
    (hok : respOk s = true)
    (hparse : jsonParse bodyText = some result)
    (hparts : optGet (optGet (optIdx0 (optGet (some result) "candidates")) "content") "parts"
      = some (.jarr (pre ++ p :: post)))
    (hprePts : ∀ q ∈ pre, partHasInline q = .ok false)
    (hpInl : partHasInline p = .ok true)
    (hdata : optGet (optGet (some p) "inlineData") "data" = some d)
    (hdT : truthy (some d) = true) :
    (fetchWithRetry upstream jit 5).result = .success s bodyText ∧
    (fetchWithRetry upstream jit 5).attemptsMade = b + 1 ∧
    handler apiKey jsonParse upstream jit req =
      (⟨200, .jobj [("base64Data", d)]⟩, b + 1) := by
  have hke := isEmpty_false_of_ne apiKey hkey
  have hra : runAttempt (upstream b) = .returned s bodyText := by
    rw [hresp]; simp [runAttempt, hok]
  obtain ⟨ds, hfull⟩ := fetch_success_shape upstream jit b s bodyText hb hpre hra
  have hfid : firstInlineData result = .ok (some d) := by
    have hfind := findInline_first pre post p hprePts hpInl
    simp only [firstInlineData, hparts, hfind, hdata]
  have ht : handlerTry jsonParse upstream jit req.body =
      .ok (⟨200, .jobj [("base64Data", d)]⟩, b + 1) := by
    simp [handlerTry, hdest, hmiss, hfull, hparse, hfid, hdT]
  refine ⟨by rw [hfull], by rw [hfull], ?_⟩
  simp [handler, hke, hpost, ht]

/-- C5 witness: a 2xx on the first attempt with a text part followed by
an inline-data part yields 200 with the inline data after exactly one
attempt. -/
theorem success_returns_first_inline_200_witness :
    (fetchWithRetry wF200 wJit0 5).result = .success 200 "RESP" ∧
    (fetchWithRetry wF200 wJit0 5).attemptsMade = 1 ∧
    handler "k" wParseOk wF200 wJit0 wReqValid =
      (⟨200, .jobj [("base64Data", .jstr "QUJD")]⟩, 1) :=
  success_returns_first_inline_200 "k" wParseOk wF200 wJit0 wReqValid
    (some (.jstr "a cat")) (some wImage) (some (.jstr "gemini")) 0 200 "RESP"
    wResultOk [wTextPart] [] wInlinePart (.jstr "QUJD")
    (by decide) rfl rfl rfl (by norm_num)
    (fun i h => absurd h (Nat.not_lt_zero i)) rfl rfl rfl rfl
    (by intro q hq; rw [List.mem_singleton] at hq; subst hq; rfl) rfl rfl rfl

/-- C6: when the upstream answers 2xx on the first attempt but the
parsed body carries no truthy inline-data part, the handler answers 500
with the content-policy message exactly when the first safety rating of
the first candidate is "HIGH" (the generic message otherwise), attaching
the full parsed response as details. -/
theorem no_inline_data_500 (apiKey : String) (jsonParse : String → Option JVal)
    (upstream : Nat → FetchOutcome) (jit : Nat → ℚ) (req : Req)
    (pt im md : Option JVal) (s : Nat) (bodyText : String) (result : JVal)
    (high : Bool)
    (hkey : apiKey ≠ "") (hpost : req.method = "POST")
    (hdest : destructure (normalizeBody jsonParse req.body) = .ok (pt, im, md))
    (hmiss : missingFields pt im md = false)
    (hresp : upstream 0 = .response s bodyText)
    (hok : respOk s = true)
    (hparse : jsonParse bodyText = some result)
    (hnone : firstInlineData result = .ok none)
    (hhigh : safetyProbHigh result = .ok high) :
    handler apiKey jsonParse upstream jit req =
      (⟨500, .jobj
        [("error", .jstr (if high then policyBlockedMsg else genericFailureMsg)),
         ("details", result)]⟩, 1) := by
  have hke := isEmpty_false_of_ne apiKey hkey
  have hra : runAttempt (upstream 0) = .returned s bodyText := by
    rw [hresp]; simp [runAttempt, hok]
  obtain ⟨ds, hfull⟩ := fetch_success_shape upstream jit 0 s bodyText (by norm_num)
    (fun i h => absurd h (Nat.not_lt_zero i)) hra
  have ht : handlerTry jsonParse upstream jit req.body =
      .ok (⟨500, .jobj
        [("error", .jstr (if high then policyBlockedMsg else genericFailureMsg)),
         ("details", result)]⟩, 1) := by
    simp [handlerTry, hdest, hmiss, hfull, hparse, hnone, hhigh, truthy]
  simp [handler, hke, hpost, ht]

/-- C6 witness: a blocked result (no inline part, first safety rating
HIGH) yields 500 with the content-policy message and the raw result
attached. -/
theorem no_inline_data_500_witness :
    handler "k" wParseBlocked wF200 wJit0 wReqValid =
      (⟨500, .jobj
        [("error", .jstr policyBlockedMsg), ("details", wResultBlocked)]⟩, 1) :=
  no_inline_data_500 "k" wParseBlocked wF200 wJit0 wReqValid
    (some (.jstr "a cat")) (some wImage) (some (.jstr "gemini")) 200 "RESP"
    wResultBlocked true
    (by decide) rfl rfl rfl rfl rfl rfl rfl rfl
